import Mathlib

/-
Verification development for the content-publish pipeline
(src/src/scripts/content.ts).

The TypeScript source is shallowly embedded: each pure helper becomes a
Lean function over strings (JavaScript strings are modelled as `String`,
regex matching is embedded per-regex with the greedy semantics of the
concrete pattern), and the effectful pipeline `contentCommit` becomes a
function from an explicit environment (results of the external git,
subprocess, and HTTP calls) to the list of performed operations and a
final outcome.
-/

deriving instance DecidableEq for Except

namespace ContentPublish

/-- Record of the command-line/environment inputs handed to the pipeline
(the `ContentCommitProps` type of the source). -/
structure ContentCommitProps where
  base : String
  script : String
  message : String
  path : String
  gitUrl : String
  gitUsername : String
  gitPassword : String
  tempPath : String
deriving Repr, DecidableEq

/-- JavaScript `a || d` on strings-or-undefined: `undefined` and the empty
string both fall back to the default (used for `process.env.X || d`). -/
def jsOr (v : Option String) (d : String) : String :=
  match v with
  | none => d
  | some s => if s = "" then d else s

/-- JavaScript template interpolation of a string-or-undefined value:
`undefined` renders as the text "undefined". -/
def jsStr : Option String → String
  | some s => s
  | none => "undefined"

/-- Characters the JavaScript regex dot (without the `s` flag) does not
match: the line terminators LF, CR, U+2028 and U+2029. -/
def isJsLineTerminator (c : Char) : Bool :=
  c = '\n' || c = '\r' || c = '\u2028' || c = '\u2029'

/-- Embeds the test of the regex `^https:\/\/(.+)(\.git)?$` with flag `i`
(first branch of `getGitWebUrl`).  Since the greedy `(.+)` may absorb the
whole remainder and the `(\.git)?` group is optional, the test holds iff
the string starts with a case-insensitive "https://" and the remainder is
nonempty and free of line terminators (`.` matches neither LF, CR,
U+2028 nor U+2029). -/
def httpsLooseTest (url : String) : Bool :=
  let cs := url.data
  ((cs.take 8).map Char.toLower == "https://".data)
    && !(cs.drop 8).isEmpty
    && !((cs.drop 8).any isJsLineTerminator)

/-- Splits a character list at the last colon that leaves a nonempty
suffix, returning the parts before and after that colon.  This is the
greedy choice of `(.+):(.+)` : the first group is maximal subject to the
second group being nonempty. -/
def sshSplitAux : List Char → Option (List Char × List Char)
  | [] => none
  | [_] => none
  | c :: rest =>
    match sshSplitAux rest with
    | some (a, b) => some (c :: a, b)
    | none => if c = ':' then some ([], rest) else none

/-- Embeds matching of the regex `^git@(.+):(.+)\.git$` (case-sensitive),
returning the two capture groups.  The `$`-anchored `\.git` always
consumes the final four characters, `(.+)` is greedy and cannot contain a
line terminator (LF, CR, U+2028, U+2029), so the match splits the middle
at the last interior colon. -/
def sshMatch (url : String) : Option (String × String) :=
  let cs := url.data
  if "git@".data.isPrefixOf cs && ".git".data.isSuffixOf cs then
    let afterAt := cs.drop 4
    let mid := afterAt.take (afterAt.length - 4)
    if mid.any isJsLineTerminator then none
    else
      match sshSplitAux mid with
      | some (a, b) => if a.isEmpty then none else some (⟨a⟩, ⟨b⟩)
      | none => none
  else none

/-- The URL canonicalizer `getGitWebUrl` of the source: an URL passing the
loose https test is returned unchanged; otherwise the SSH shape is
rewritten to `https://host/path.git`; otherwise the call throws
`Invalid git url: ...` (modelled as `Except.error`). -/
def getGitWebUrl (url : String) : Except String String :=
  if httpsLooseTest url then .ok url
  else
    match sshMatch url with
    | none => .error ("Invalid git url: " ++ url)
    | some (host, path) => .ok ("https://" ++ host ++ "/" ++ path ++ ".git")

/-- Breaks a character list at the first occurrence of `sep`, dropping the
separator; `none` when `sep` does not occur. -/
def breakOn (sep : Char) (l : List Char) : Option (List Char × List Char) :=
  match l.span (fun c => c != sep) with
  | (_, []) => none
  | (a, _ :: b) => some (a, b)

/-- Embeds matching of `^https:\/\/([^\/]+)\/([^\/]+)\/([^\.]+)(\.git)?$`
with flag `i` (the https branch of `getRepoInfo`), returning the host,
owner and repo capture groups.  The negated classes force the split at
the first two slashes after the scheme, the third group is a maximal
dot-free run, and the optional tail must be a case-insensitive ".git". -/
def httpsRepoMatch (url : String) : Option (String × String × String) :=
  let cs := url.data
  if (cs.take 8).map Char.toLower == "https://".data then
    let rest := cs.drop 8
    match breakOn '/' rest with
    | none => none
    | some (host, rest1) =>
      if host.isEmpty then none
      else
        match breakOn '/' rest1 with
        | none => none
        | some (owner, rest2) =>
          if owner.isEmpty then none
          else
            let p := rest2.span (fun c => c != '.')
            if p.1.isEmpty then none
            else if p.2.isEmpty || p.2.map Char.toLower == ".git".data then
              some (⟨host⟩, ⟨owner⟩, ⟨p.1⟩)
            else none
  else none

/-- The owner/repo pair produced by `getRepoInfo`.  The source declares
`repo : string`, but its SSH branch reads capture group 3 of a regex
having only two groups, so at runtime `repo` can be the JavaScript value
`undefined`; that value is modelled as `none`. -/
structure RepoInfo where
  owner : String
  repo : Option String
deriving Repr, DecidableEq

/-- The repo identity resolver `getRepoInfo` of the source.  The SSH
regex `^git@(.+):(.+)\.git$` is tried first; on a match the source
returns `owner = match[2]` (the whole `owner/repo` path, group 2) and
`repo = match[3]` (`undefined`, since the regex has only two groups —
modelled as `none`).  Otherwise the https regex is tried; on a match the source
returns its groups 2 and 3.  Otherwise the call throws. -/
def getRepoInfo (url : String) : Except String RepoInfo :=
  match sshMatch url with
  | some (_, path) => .ok { owner := path, repo := none }
  | none =>
    match httpsRepoMatch url with
    | none => .error ("Invalid git url: " ++ url)
    | some (_, owner, repo) => .ok { owner := owner, repo := some repo }

/-- The character of a decimal digit. -/
def digitChar10 (r : Nat) : Char := Char.ofNat (48 + r)

/-- Fuel-driven digit expansion, most significant digit first; the fuel
only bounds the recursion depth. -/
def natToDigitsAux : Nat → Nat → List Char
  | 0, _ => []
  | f + 1, n =>
    if n < 10 then [digitChar10 n]
    else natToDigitsAux f (n / 10) ++ [digitChar10 (n % 10)]

/-- Decimal digit characters of a natural number, most significant first
(JavaScript's number-to-string rendering for nonnegative integers). -/
def natToDigits (n : Nat) : List Char := natToDigitsAux (n + 1) n

/-- Decimal string of a natural number. -/
def natStr (n : Nat) : String := ⟨natToDigits n⟩

/-- Embeds `x.toString().padStart(2, '0')`: a single digit gets a leading
zero, longer renderings are unchanged. -/
def pad2 (n : Nat) : String :=
  if n < 10 then ⟨'0' :: natToDigits n⟩ else natStr n

/-- The components of the `new Date()` taken at the start of a run.  The
`local*` fields are what the local-time accessors `getFullYear`,
`getMonth` (0-based) and `getDate` return; the `utc*` fields are what the
corresponding UTC accessors would return for the same instant; `millis`
is `valueOf()` (epoch milliseconds; the model covers runs at or after the
Unix epoch). -/
structure DateParts where
  localYear : Nat
  localMonth0 : Nat
  localDay : Nat
  utcYear : Nat
  utcMonth0 : Nat
  utcDay : Nat
  millis : Nat
deriving Repr, DecidableEq

/-- The `dateName` string of the source:
`getFullYear ++ pad2 (getMonth+1) ++ pad2 getDate`, built from the
local-time accessors. -/
def dateName (d : DateParts) : String :=
  natStr d.localYear ++ pad2 (d.localMonth0 + 1) ++ pad2 d.localDay

/-- The same eight-character rendering built from the UTC accessors (what
the spec's "UTC date" denotes); not computed by the source. -/
def utcDateName (d : DateParts) : String :=
  natStr d.utcYear ++ pad2 (d.utcMonth0 + 1) ++ pad2 d.utcDay

/-- The publish branch name `content-publish-${dateName}-${dateStamp}`. -/
def publishBranchName (d : DateParts) : String :=
  "content-publish-" ++ dateName d ++ "-" ++ natStr d.millis

/-- Decidable check that a string matches `content-publish-\d{8}-\d+`
anchored on both sides. -/
def matchesPublishPattern (s : String) : Bool :=
  let pre := "content-publish-".data
  let cs := s.data
  pre.isPrefixOf cs &&
    (let rest := cs.drop pre.length
     ((rest.take 8).length == 8)
       && (rest.take 8).all Char.isDigit
       && (match rest.drop 8 with
           | '-' :: m => !m.isEmpty && m.all Char.isDigit
           | _ => false))

/-- One row of `git.statusMatrix`: the file path and the numeric
HEAD / WORKDIR / STAGE states (the source's `StatusEnum` indices 1-3). -/
structure StatusRow where
  file : String
  head : Nat
  workdir : Nat
  stage : Nat
deriving Repr, DecidableEq

/-- The `modifiedFiles` computation of the source: keep every status row
except those with HEAD = WORKDIR = STAGE = 1, and project to the path. -/
def changeSet (matrix : List StatusRow) : List String :=
  (matrix.filter fun r => !(r.head == 1 && r.workdir == 1 && r.stage == 1)).map
    (fun r => r.file)

/-- Scope predicate of `statusMatrix`'s `filepaths` argument (library
contract of isomorphic-git): a reported path either equals the given
filepath or lies below it as a directory. -/
def isUnderPath (scope file : String) : Bool :=
  file == scope || (scope ++ "/").data.isPrefixOf file.data

/-- The three header fields the source builds from the credentials. -/
structure HttpHeaderFields where
  authorization : String
  contentType : String
  accept : String
deriving Repr, DecidableEq

/-- The object literal passed as the second axios argument of the PR
creation POST.  In the source the `baseURL` and `headers` entries sit
inside this body object (the call has no third, config, argument). -/
structure PrCreateBody where
  owner : String
  repo : String
  title : String
  body : String
  head : String
  base : String
  baseURL : String
  headers : HttpHeaderFields
deriving Repr, DecidableEq

/-- The PR creation POST as issued: target URL, JSON body, and the axios
config argument (`none` — the source passes only url and body, so no
custom HTTP header is attached to the request). -/
structure PrCreateReq where
  url : String
  body : PrCreateBody
  config : Option HttpHeaderFields
deriving Repr, DecidableEq

/-- The object literal passed as the second axios argument of the PR
merge PUT; as with creation, `baseURL` and `headers` are body entries. -/
structure PrMergeBody where
  owner : String
  repo : String
  baseURL : String
  pull_number : Nat
  commit_title : String
  commit_message : String
  headers : HttpHeaderFields
deriving Repr, DecidableEq

/-- The PR merge PUT as issued (again with no config argument). -/
structure PrMergeReq where
  url : String
  body : PrMergeBody
  config : Option HttpHeaderFields
deriving Repr, DecidableEq

/-- The PR creation POST of the source, lines 263-278. -/
def mkPrCreateReq (gitPassword owner repoStr branch base : String) : PrCreateReq :=
  { url := "https://api.github.com/repos/" ++ owner ++ "/" ++ repoStr ++ "/pulls"
    body :=
      { owner := owner
        repo := repoStr
        title := "chore(content): publish updates"
        body := ""
        head := branch
        base := base
        baseURL := "https://api.github.com/"
        headers :=
          { authorization := "Bearer " ++ gitPassword
            contentType := "application/json"
            accept := "application/vnd.github+json" } }
    config := none }

/-- The PR merge PUT of the source, lines 284-296. -/
def mkPrMergeReq (gitPassword owner repoStr : String) (n : Nat) : PrMergeReq :=
  { url := "https://api.github.com/repos/" ++ owner ++ "/" ++ repoStr
      ++ "/pulls/" ++ natStr n ++ "/merge"
    body :=
      { owner := owner
        repo := repoStr
        baseURL := "https://api.github.com/"
        pull_number := n
        commit_title := "Merge pull request " ++ natStr n
        commit_message := "Publish content"
        headers :=
          { authorization := "Bearer " ++ gitPassword
            contentType := "application/json"
            accept := "application/vnd.github+json" } }
    config := none }

/-- The external operations `contentCommit` performs, in order. -/
inductive Action where
  | clone (url : String) (dir : String)
  | branchCreate (name : String)
  | execBuild (cmd : String) (cwd : String)
  | statusQuery (filepaths : List String)
  | gitAdd (filepath : List String)
  | gitCommit (authorName : String) (authorEmail : String) (message : String)
  | gitPush (remote : String) (url : String) (ref : String)
  | prCreate (req : PrCreateReq)
  | prMerge (number : Nat) (req : PrMergeReq)
deriving Repr, DecidableEq

/-- Outcome of one `contentCommit` run: the early return on an empty
change set, normal completion, or an error caught by the enclosing
try/catch (which logs it and resolves). -/
inductive CCResult where
  | noChanges
  | completed
  | failed (msg : String)
deriving Repr, DecidableEq

/-- Results of the external calls made during one `contentCommit` run,
together with the environment variables and fresh values it reads.  Each
`Except` carries the rejection message of the corresponding awaited call
(or thrown subprocess error). -/
structure CCEnv where
  pathPrefixVar : Option String
  authorNameVar : Option String
  authorEmailVar : Option String
  uuidStr : String
  date : DateParts
  cloneResult : Except String Unit
  branchResult : Except String Unit
  execResult : Except String Unit
  statusResult : Except String (List StatusRow)
  addResult : Except String Unit
  commitResult : Except String String
  pushResult : Except String Unit
  prCreateResult : Except String (Option Nat)
  prMergeResult : Except String Unit
deriving Repr, DecidableEq

/-- The scratch checkout directory
`resolve(tempPath, prefix + uuid)` of the run. -/
def workingPathOf (props : ContentCommitProps) (env : CCEnv) : String :=
  props.tempPath ++ "/" ++ jsOr env.pathPrefixVar "" ++ env.uuidStr

/-- The subprocess command `npm i && npm run build && ${script}`. -/
def buildCmd (script : String) : String :=
  "npm i && npm run build && " ++ script

/-- The tail of `contentCommit` once a non-empty `modifiedFiles` list has
been computed: stage the listed paths, commit, push the publish branch,
create the pull request, and merge it by the returned number (the falsy
check on that number treats both a missing field and 0 as absent). -/
def commitPhase (props : ContentCommitProps) (env : CCEnv) (info : RepoInfo)
    (branch : String) (modifiedFiles : List String) : List Action × CCResult :=
  let authorName := jsOr env.authorNameVar "john"
  let authorEmail := jsOr env.authorEmailVar "john@example.com"
  let acts := [Action.gitAdd modifiedFiles]
  match env.addResult with
  | .error e => (acts, .failed e)
  | .ok _ =>
    let acts := acts ++ [Action.gitCommit authorName authorEmail props.message]
    match env.commitResult with
    | .error e => (acts, .failed e)
    | .ok _ =>
      let acts := acts ++ [Action.gitPush "origin" props.gitUrl branch]
      match env.pushResult with
      | .error e => (acts, .failed e)
      | .ok _ =>
        let repoStr := jsStr info.repo
        let createReq := mkPrCreateReq props.gitPassword info.owner repoStr branch props.base
        let acts := acts ++ [Action.prCreate createReq]
        match env.prCreateResult with
        | .error e => (acts, .failed e)
        | .ok optNum =>
          match optNum with
          | none => (acts, .failed "Failed to retrieve content publish PR number.")
          | some n =>
            if n = 0 then (acts, .failed "Failed to retrieve content publish PR number.")
            else
              let mergeReq := mkPrMergeReq props.gitPassword info.owner repoStr n
              let acts := acts ++ [Action.prMerge n mergeReq]
              match env.prMergeResult with
              | .error e => (acts, .failed e)
              | .ok _ => (acts, .completed)

/-- The pipeline `contentCommit` of the source, as a function of the
request and of the environment: it returns the operations performed in
order and the final outcome.  Control flow mirrors the source: repo
identity, clone, branch, build subprocess, status matrix, early return
when nothing changed, then `commitPhase`.  Any rejection is caught by
the outer try/catch, modelled as `CCResult.failed`. -/
def contentCommitRun (props : ContentCommitProps) (env : CCEnv) :
    List Action × CCResult :=
  let workingPath := workingPathOf props env
  match getRepoInfo props.gitUrl with
  | .error e => ([], .failed e)
  | .ok info =>
    let acts := [Action.clone props.gitUrl workingPath]
    match env.cloneResult with
    | .error e => (acts, .failed e)
    | .ok _ =>
      let branch := publishBranchName env.date
      let acts := acts ++ [Action.branchCreate branch]
      match env.branchResult with
      | .error e => (acts, .failed e)
      | .ok _ =>
        let acts := acts ++ [Action.execBuild (buildCmd props.script) workingPath]
        match env.execResult with
        | .error stderrText => (acts, .failed ("Setup and build error: " ++ stderrText))
        | .ok _ =>
          let acts := acts ++ [Action.statusQuery [props.path]]
          match env.statusResult with
          | .error e => (acts, .failed e)
          | .ok matrix =>
            let modifiedFiles := changeSet matrix
            if modifiedFiles.isEmpty then (acts, .noChanges)
            else
              let cp := commitPhase props env info branch modifiedFiles
              (acts ++ cp.1, cp.2)

/-- Removes the first occurrence of `pat` from `l` (JavaScript
`String.replace(pat, '')` with a plain-string pattern). -/
def removeFirstOcc (pat : List Char) : List Char → List Char
  | [] => []
  | c :: rest =>
    if pat.isPrefixOf (c :: rest) then (c :: rest).drop pat.length
    else c :: removeFirstOcc pat rest

/-- The per-ref normalization `r.ref.replace('refs/heads/', '')` used to
compare server refs with the requested base branch. -/
def stripHeadsOnce (s : String) : String :=
  ⟨removeFirstOcc "refs/heads/".data s.data⟩

/-- Environment of `validateInput`: the ref names returned by
`listServerRefs` and the two filesystem facts about the temp path. -/
structure ValidateEnv where
  serverRefs : List String
  tempExists : Bool
  tempWritable : Bool
deriving Repr, DecidableEq

/-- The input validator of the source, lines 64-120: field checks in
source order, then the remote base-branch lookup, then the temp-path
checks.  A thrown error is modelled as `Except.error` with the thrown
message. -/
def validateInput (props : ContentCommitProps) (env : ValidateEnv) :
    Except String Bool :=
  if props.base = "" then .error "Missing \"base\" branch name."
  else if props.gitUrl = "" then .error "Missing repo \"url\"."
  else if props.gitUsername = "" then
    .error "Missing git \"CONTENT_PUBLISH_GIT_USERNAME\" from env variable."
  else if props.gitPassword = "" then
    .error "Missing git \"CONTENT_PUBLISH_GIT_PASSWORD\" from env variable."
  else if props.script = "" then .error "Missing content update \"script\"."
  else
    match env.serverRefs.find? (fun r => stripHeadsOnce r == props.base) with
    | none => .error ("Base branch name: " ++ props.base ++ " does not exist.")
    | some _ =>
      if props.tempPath = "" then .error "Missing \"tempPath\"."
      else if !env.tempExists then
        .error ("Temp path: " ++ props.tempPath ++ " does not exist.")
      else if !env.tempWritable then
        .error ("Temp path: " ++ props.tempPath ++ " is not writable.")
      else .ok true

/-- The gate in `start`, lines 341-343: `contentCommit` runs only when
`validateInput` resolved; a validation error is caught in `start` and
nothing of the pipeline is invoked (empty operation list, no outcome). -/
def startRun (props : ContentCommitProps) (venv : ValidateEnv) (cenv : CCEnv) :
    List Action × Option CCResult :=
  match validateInput props venv with
  | .error _ => ([], none)
  | .ok _ =>
    let r := contentCommitRun props cenv
    (r.1, some r.2)

/-- The eight characters following "content-publish-" (length 16) in a
publish branch name: its date component. -/
def dateComponent (s : String) : String :=
  ⟨(s.data.drop 16).take 8⟩

/-- Holds of the operations the no-changes early return must not
perform: staging, committing, pushing, PR creation, PR merge. -/
def isCommitPhaseAction : Action → Bool
  | .gitAdd _ => true
  | .gitCommit _ _ _ => true
  | .gitPush _ _ _ => true
  | .prCreate _ => true
  | .prMerge _ _ => true
  | _ => false

/-
Concrete fixtures used by witnesses and counterexamples.
-/

/-- Date of a run taken at epoch milliseconds 1700000000000, i.e. the
instant 2023-11-14T22:13:20Z, in a process whose local timezone is
UTC+03:00: the local civil date is already 2023-11-15 while the UTC date
is still 2023-11-14. -/
def c3Date : DateParts where
  localYear := 2023
  localMonth0 := 10
  localDay := 15
  utcYear := 2023
  utcMonth0 := 10
  utcDay := 14
  millis := 1700000000000

/-- Status matrix with one modified and one unmodified row. -/
def c4Matrix : List StatusRow :=
  [⟨"content/a.md", 1, 2, 1⟩, ⟨"content/b.md", 1, 1, 1⟩]

/-- Request fixture with a well-formed https remote URL. -/
def wProps : ContentCommitProps where
  base := "main"
  script := "npm run update"
  message := "Product publish"
  path := "content"
  gitUrl := "https://github.com/acme/site.git"
  gitUsername := "u"
  gitPassword := "tok"
  tempPath := "/tmp"

/-- Repo identity of `wProps.gitUrl`. -/
def wInfo : RepoInfo where
  owner := "acme"
  repo := some "site"

/-- Date fixture with matching local and UTC components. -/
def wDate : DateParts where
  localYear := 2026
  localMonth0 := 9
  localDay := 11
  utcYear := 2026
  utcMonth0 := 9
  utcDay := 11
  millis := 1760000000000

/-- Status matrix fixture: one changed row, one unchanged row. -/
def wMatrix : List StatusRow :=
  [⟨"content/a.md", 1, 2, 1⟩, ⟨"content/b.md", 1, 1, 1⟩]

/-- Status matrix fixture where every row is unchanged. -/
def wMatrixClean : List StatusRow := [⟨"content/b.md", 1, 1, 1⟩]

/-- Environment fixture for a fully successful run. -/
def wEnvOk : CCEnv where
  pathPrefixVar := none
  authorNameVar := none
  authorEmailVar := none
  uuidStr := "uuid-1"
  date := wDate
  cloneResult := .ok ()
  branchResult := .ok ()
  execResult := .ok ()
  statusResult := .ok wMatrix
  addResult := .ok ()
  commitResult := .ok "sha1"
  pushResult := .ok ()
  prCreateResult := .ok (some 7)
  prMergeResult := .ok ()

/-- Environment fixture where the build left the content path unchanged. -/
def wEnvClean : CCEnv := { wEnvOk with statusResult := .ok wMatrixClean }

/-- Environment fixture where the PR creation response has no number. -/
def wEnvNoNum : CCEnv := { wEnvOk with prCreateResult := .ok none }

/-- Environment fixture where the build subprocess fails. -/
def wEnvBuildFail : CCEnv := { wEnvOk with execResult := .error "boom" }

/-- Request fixture whose base branch is absent from the server refs of
`c7VEnv`. -/
def c7Props : ContentCommitProps where
  base := "main"
  script := "echo"
  message := "Product publish"
  path := "src"
  gitUrl := "https://github.com/acme/site.git"
  gitUsername := "u"
  gitPassword := "p"
  tempPath := "/tmp"

/-- Validation environment whose ref list does not contain `main`. -/
def c7VEnv : ValidateEnv where
  serverRefs := ["refs/heads/dev"]
  tempExists := true
  tempWritable := true

/-- Request fixture whose URL passes the loose https test but has no
owner/repo path segments. -/
def c10Props : ContentCommitProps where
  base := "main"
  script := "echo"
  message := "Product publish"
  path := "src"
  gitUrl := "https://example.com"
  gitUsername := "u"
  gitPassword := "p"
  tempPath := "/tmp"

/-- Validation environment in which `c10Props` validates successfully. -/
def c10VEnv : ValidateEnv where
  serverRefs := ["refs/heads/main"]
  tempExists := true
  tempWritable := true

/-- Pipeline environment for the `c10Props` run (every external call
would succeed; the run never reaches them). -/
def c10CEnv : CCEnv where
  pathPrefixVar := none
  authorNameVar := none
  authorEmailVar := none
  uuidStr := "u1"
  date := wDate
  cloneResult := .ok ()
  branchResult := .ok ()
  execResult := .ok ()
  statusResult := .ok []
  addResult := .ok ()
  commitResult := .ok "s"
  pushResult := .ok ()
  prCreateResult := .ok (some 1)
  prMergeResult := .ok ()

/-
Helper lemmas.
-/

/-- Characters produced for single digits are decimal digit characters. -/
theorem digitChar_isDigit (r : Nat) (h : r < 10) :
    (Char.ofNat (48 + r)).isDigit = true := by
  interval_cases r <;> decide

/-- Every character of the fueled digit expansion is a decimal digit. -/
theorem mem_natToDigitsAux_isDigit (f : Nat) :
    ∀ n c, c ∈ natToDigitsAux f n → c.isDigit = true := by
  induction f with
  | zero => intro n c hc; simp [natToDigitsAux] at hc
  | succ f ih =>
    intro n c hc
    rw [natToDigitsAux] at hc
    by_cases h : n < 10
    · rw [if_pos h] at hc
      simp only [List.mem_singleton] at hc
      subst hc
      exact digitChar_isDigit n h
    · rw [if_neg h] at hc
      rcases List.mem_append.mp hc with hm | hm
      · exact ih (n / 10) c hm
      · simp only [List.mem_singleton] at hm
        subst hm
        exact digitChar_isDigit (n % 10) (by omega)

/-- Every character of a decimal rendering is a decimal digit. -/
theorem mem_natToDigits_isDigit (n : Nat) :
    ∀ c ∈ natToDigits n, c.isDigit = true :=
  fun c hc => mem_natToDigitsAux_isDigit (n + 1) n c hc

/-- Single-digit numbers render to one character. -/
theorem natToDigitsAux_len1 (f n : Nat) (hf : 0 < f) (h : n < 10) :
    (natToDigitsAux f n).length = 1 := by
  obtain ⟨f2, rfl⟩ := Nat.exists_eq_succ_of_ne_zero (by omega : f ≠ 0)
  rw [natToDigitsAux, if_pos h]
  rfl

/-- Two-digit numbers render to two characters. -/
theorem natToDigitsAux_len2 (f n : Nat) (hf : 2 ≤ f) (h1 : 10 ≤ n) (h2 : n < 100) :
    (natToDigitsAux f n).length = 2 := by
  obtain ⟨f2, rfl⟩ := Nat.exists_eq_succ_of_ne_zero (by omega : f ≠ 0)
  rw [natToDigitsAux, if_neg (by omega)]
  simp [natToDigitsAux_len1 f2 (n / 10) (by omega) (by omega)]

/-- Three-digit numbers render to three characters. -/
theorem natToDigitsAux_len3 (f n : Nat) (hf : 3 ≤ f) (h1 : 100 ≤ n) (h2 : n < 1000) :
    (natToDigitsAux f n).length = 3 := by
  obtain ⟨f2, rfl⟩ := Nat.exists_eq_succ_of_ne_zero (by omega : f ≠ 0)
  rw [natToDigitsAux, if_neg (by omega)]
  simp [natToDigitsAux_len2 f2 (n / 10) (by omega) (by omega) (by omega)]

/-- Four-digit numbers render to four characters. -/
theorem natToDigitsAux_len4 (f n : Nat) (hf : 4 ≤ f) (h1 : 1000 ≤ n) (h2 : n < 10000) :
    (natToDigitsAux f n).length = 4 := by
  obtain ⟨f2, rfl⟩ := Nat.exists_eq_succ_of_ne_zero (by omega : f ≠ 0)
  rw [natToDigitsAux, if_neg (by omega)]
  simp [natToDigitsAux_len3 f2 (n / 10) (by omega) (by omega) (by omega)]

/-- Length of the rendering of a single-digit number. -/
theorem natToDigits_len1 (n : Nat) (h : n < 10) : (natToDigits n).length = 1 :=
  natToDigitsAux_len1 (n + 1) n (by omega) h

/-- Length of the rendering of a two-digit number. -/
theorem natToDigits_len2 (n : Nat) (h1 : 10 ≤ n) (h2 : n < 100) :
    (natToDigits n).length = 2 :=
  natToDigitsAux_len2 (n + 1) n (by omega) h1 h2

/-- Length of the rendering of a four-digit number. -/
theorem natToDigits_len4 (n : Nat) (h1 : 1000 ≤ n) (h2 : n < 10000) :
    (natToDigits n).length = 4 :=
  natToDigitsAux_len4 (n + 1) n (by omega) h1 h2

/-- Digit renderings are never empty. -/
theorem natToDigits_ne_nil (n : Nat) : natToDigits n ≠ [] := by
  rw [natToDigits, natToDigitsAux]
  split <;> simp

/-- Zero-padded renderings of numbers below 100 have two characters. -/
theorem pad2_data_len (n : Nat) (h : n < 100) : (pad2 n).data.length = 2 := by
  unfold pad2
  split
  · show ('0' :: natToDigits n).length = 2
    simp [natToDigits_len1 n (by assumption)]
  · exact natToDigits_len2 n (by omega) h

/-- Every character of a zero-padded rendering is a decimal digit. -/
theorem mem_pad2_isDigit (n : Nat) : ∀ c ∈ (pad2 n).data, c.isDigit = true := by
  unfold pad2
  split
  · intro c hc
    show c.isDigit = true
    rcases List.mem_cons.mp hc with h0 | hmem
    · subst h0; decide
    · exact mem_natToDigits_isDigit n c hmem
  · exact mem_natToDigits_isDigit n

/-- Character expansion of the date component. -/
theorem dateName_data (d : DateParts) :
    (dateName d).data =
      natToDigits d.localYear ++
        ((pad2 (d.localMonth0 + 1)).data ++ (pad2 d.localDay).data) := by
  unfold dateName natStr
  simp [String.data_append]

/-- On calendar dates of four-digit years the date component has exactly
eight characters. -/
theorem dateName_len (d : DateParts) (hy1 : 1000 ≤ d.localYear)
    (hy2 : d.localYear < 10000) (hm : d.localMonth0 ≤ 11) (hd : d.localDay ≤ 31) :
    (dateName d).data.length = 8 := by
  rw [dateName_data]
  simp [natToDigits_len4 d.localYear hy1 hy2, pad2_data_len (d.localMonth0 + 1) (by omega),
    pad2_data_len d.localDay (by omega)]

/-- Every character of the date component is a decimal digit. -/
theorem mem_dateName_isDigit (d : DateParts) :
    ∀ c ∈ (dateName d).data, c.isDigit = true := by
  rw [dateName_data]
  intro c hc
  rcases List.mem_append.mp hc with h | h
  · exact mem_natToDigits_isDigit _ c h
  · rcases List.mem_append.mp h with h | h
    · exact mem_pad2_isDigit _ c h
    · exact mem_pad2_isDigit _ c h

/-- Sufficient condition for matching `content-publish-\d{8}-\d+`. -/
theorem matchesPublishPattern_of (s : String) (d8 m : List Char)
    (hs : s.data = "content-publish-".data ++ (d8 ++ '-' :: m))
    (hlen : d8.length = 8) (hd : ∀ c ∈ d8, c.isDigit = true)
    (hm : m ≠ []) (hmd : ∀ c ∈ m, c.isDigit = true) :
    matchesPublishPattern s = true := by
  unfold matchesPublishPattern
  rw [hs]
  have hpre : "content-publish-".data.isPrefixOf
      ("content-publish-".data ++ (d8 ++ '-' :: m)) = true :=
    List.isPrefixOf_iff_prefix.mpr (List.prefix_append _ _)
  have htake : List.take 8 (d8 ++ '-' :: m) = d8 := by
    rw [← hlen]; exact List.take_left _ _
  have hdrop : List.drop 8 (d8 ++ '-' :: m) = '-' :: m := by
    rw [← hlen]; exact List.drop_left _ _
  simp only [List.drop_left, htake, hdrop, hpre, hlen, Bool.true_and, beq_self_eq_true]
  simp [List.all_eq_true.mpr hd, List.all_eq_true.mpr hmd, hm]

/-- Character expansion of a publish branch name. -/
theorem publishBranchName_data (d : DateParts) :
    (publishBranchName d).data =
      "content-publish-".data ++ ((dateName d).data ++ '-' :: natToDigits d.millis) := by
  unfold publishBranchName natStr
  simp [String.data_append]

/-- The only paths ever handed to `git.add` by the commit phase are the
`modifiedFiles` it was given. -/
theorem commitPhase_gitAdd_eq (props : ContentCommitProps) (env : CCEnv) (info : RepoInfo)
    (branch : String) (files : List String) :
    ∀ fs, Action.gitAdd fs ∈ (commitPhase props env info branch files).1 → fs = files := by
  intro fs
  unfold commitPhase
  rcases env.addResult with e | u <;>
    rcases env.commitResult with e2 | sha <;>
      rcases env.pushResult with e3 | u3 <;>
        rcases env.prCreateResult with e4 | (_ | n) <;>
          rcases env.prMergeResult with e5 | u5 <;>
            dsimp only <;> (try split) <;> intro hmem <;> simp_all

/-- The commit phase always stages its `modifiedFiles` argument. -/
theorem commitPhase_gitAdd_mem (props : ContentCommitProps) (env : CCEnv) (info : RepoInfo)
    (branch : String) (files : List String) :
    Action.gitAdd files ∈ (commitPhase props env info branch files).1 := by
  unfold commitPhase
  rcases env.addResult with e | u <;>
    rcases env.commitResult with e2 | sha <;>
      rcases env.pushResult with e3 | u3 <;>
        rcases env.prCreateResult with e4 | (_ | n) <;>
          rcases env.prMergeResult with e5 | u5 <;>
            dsimp only <;> (try split) <;> simp_all

/-- A merge request is issued by the commit phase only when PR creation
resolved with that nonzero number. -/
theorem commitPhase_prMerge (props : ContentCommitProps) (env : CCEnv) (info : RepoInfo)
    (branch : String) (files : List String) :
    ∀ n req, Action.prMerge n req ∈ (commitPhase props env info branch files).1 →
      env.prCreateResult = .ok (some n) ∧ n ≠ 0 := by
  intro n req
  unfold commitPhase
  rcases env.addResult with e | u <;>
    rcases env.commitResult with e2 | sha <;>
      rcases env.pushResult with e3 | u3 <;>
        rcases env.prCreateResult with e4 | (_ | n0) <;>
          rcases env.prMergeResult with e5 | u5 <;>
            dsimp only <;> (try split) <;> intro hmem <;> simp_all

/-- In any run, a merge request is issued only when PR creation resolved
with that number. -/
theorem contentCommitRun_prMerge (props : ContentCommitProps) (env : CCEnv) :
    ∀ n req, Action.prMerge n req ∈ (contentCommitRun props env).1 →
      env.prCreateResult = .ok (some n) := by
  intro n req
  unfold contentCommitRun
  rcases getRepoInfo props.gitUrl with e | info <;>
    rcases env.cloneResult with e1 | u1 <;>
      rcases env.branchResult with e2 | u2 <;>
        rcases env.execResult with e3 | u3 <;>
          rcases env.statusResult with e4 | mtx <;>
            dsimp only <;> (try split) <;> intro hmem <;>
              first
                | (simp at hmem; done)
                | (rcases List.mem_append.mp hmem with h | h
                   · simp at h
                   · exact (commitPhase_prMerge props env info _ _ n req h).1)

/-- In any run whose status query returned `matrix`, the only paths ever
handed to `git.add` are `changeSet matrix`. -/
theorem contentCommitRun_gitAdd (props : ContentCommitProps) (env : CCEnv)
    (matrix : List StatusRow) (hstatus : env.statusResult = .ok matrix) :
    ∀ fs, Action.gitAdd fs ∈ (contentCommitRun props env).1 → fs = changeSet matrix := by
  intro fs
  unfold contentCommitRun
  simp only [hstatus]
  rcases getRepoInfo props.gitUrl with e | info <;>
    rcases env.cloneResult with e1 | u1 <;>
      rcases env.branchResult with e2 | u2 <;>
        rcases env.execResult with e3 | u3 <;>
          dsimp only <;> (try split) <;> intro hmem <;>
            first
              | (simp at hmem; done)
              | (rcases List.mem_append.mp hmem with h | h
                 · simp at h
                 · exact commitPhase_gitAdd_eq props env info _ _ fs h)

/-
Claim theorems.
-/

/-- C1.  Claim: for an SSH-style URL `git@H:O/R.git` the repo identity
resolver yields owner = O and repo = R, and the canonicalizer yields
`https://H/O/R.git`.  Evaluating the code at `git@github.com:foo/bar.git`
shows the canonicalizer half holds, but `getRepoInfo` returns
owner = "foo/bar" (capture group 2 of the two-group SSH regex is the
whole `owner/repo` path) and repo = `undefined` (the regex has no group
3), contradicting the resolver half of the claim and the declared
`{owner: string; repo: string}` return type. -/
theorem c1_ssh_resolver_eval :
    getRepoInfo "git@github.com:foo/bar.git" = .ok { owner := "foo/bar", repo := none } ∧
    getGitWebUrl "git@github.com:foo/bar.git" = .ok "https://github.com/foo/bar.git" := by
  decide

/-- C2.  Claim: both REST calls send a bearer Authorization header, JSON
content type and the vendor accept header as HTTP headers.  In the code
both axios calls receive only a URL and a body: the `headers` (and
`baseURL`) entries sit inside the request body object, and the third
(config) argument, the only place axios reads HTTP headers from, is
absent, so no Authorization header is sent and the token is serialized
into the JSON body instead. -/
theorem c2_headers_in_body_not_config (gitPassword owner repoStr branch base : String)
    (n : Nat) :
    (mkPrCreateReq gitPassword owner repoStr branch base).config = none ∧
    (mkPrCreateReq gitPassword owner repoStr branch base).body.headers.authorization
      = "Bearer " ++ gitPassword ∧
    (mkPrMergeReq gitPassword owner repoStr n).config = none ∧
    (mkPrMergeReq gitPassword owner repoStr n).body.headers.authorization
      = "Bearer " ++ gitPassword :=
  ⟨rfl, rfl, rfl, rfl⟩

/-- C3 counterexample.  Claim: the eight-digit date component of the
publish branch name equals the run's UTC date.  At the instant
1700000000000 ms (2023-11-14T22:13:20Z) in a UTC+03:00 process the
source's local-time accessors yield the local date 2023-11-15, so the
branch date component is 20231115 while the UTC date is 20231114. -/
theorem c3_date_counterexample :
    matchesPublishPattern (publishBranchName c3Date) = true ∧
    dateComponent (publishBranchName c3Date) = "20231115" ∧
    utcDateName c3Date = "20231114" ∧
    dateComponent (publishBranchName c3Date) ≠ utcDateName c3Date := by
  decide

/-- C3 amended.  The publish branch name has the form
`content-publish-{YYYYMMDD}-{epoch-millis}` and matches
`content-publish-\d{8}-\d+`, and its eight-digit date component equals
the run's local date (the source uses the local-time accessors
`getFullYear`/`getMonth`/`getDate`, which agree with UTC only when the
process timezone is UTC). -/
theorem c3_branch_name_local_date (d : DateParts) (hy1 : 1000 ≤ d.localYear)
    (hy2 : d.localYear < 10000) (hm : d.localMonth0 ≤ 11) (hd : d.localDay ≤ 31) :
    matchesPublishPattern (publishBranchName d) = true ∧
    dateComponent (publishBranchName d) = dateName d := by
  have hdata := publishBranchName_data d
  have hlen8 := dateName_len d hy1 hy2 hm hd
  constructor
  · exact matchesPublishPattern_of _ _ _ hdata hlen8 (mem_dateName_isDigit d)
      (natToDigits_ne_nil _) (mem_natToDigits_isDigit _)
  · unfold dateComponent
    rw [hdata]
    rw [show (16 : Nat) = "content-publish-".data.length from rfl]
    rw [List.drop_left]
    have htake : List.take 8 ((dateName d).data ++ '-' :: natToDigits d.millis)
        = (dateName d).data := by
      rw [← hlen8]; exact List.take_left _ _
    rw [htake]

/-- C3 witness: the amended statement at a concrete date. -/
theorem c3_branch_name_witness :
    matchesPublishPattern (publishBranchName wDate) = true ∧
    dateComponent (publishBranchName wDate) = dateName wDate :=
  c3_branch_name_local_date wDate (by decide) (by decide) (by decide) (by decide)

/-- C4.  A path reported by the status query is excluded from the change
set iff its HEAD, working-tree and staging states are all 1 (identical
content in the three states); any other status vector puts the path in
the change set. -/
theorem c4_changeSet_mem_iff (matrix : List StatusRow) (row : StatusRow)
    (hmem : row ∈ matrix) (hnodup : (matrix.map (fun r => r.file)).Nodup) :
    row.file ∈ changeSet matrix ↔ ¬(row.head = 1 ∧ row.workdir = 1 ∧ row.stage = 1) := by
  unfold changeSet
  constructor
  · intro h hall
    rcases List.mem_map.mp h with ⟨r, hr, hfile⟩
    obtain ⟨hrmem, hpred⟩ := List.mem_filter.mp hr
    have hreq : r = row := List.inj_on_of_nodup_map hnodup hrmem hmem hfile
    subst hreq
    rw [hall.1, hall.2.1, hall.2.2] at hpred
    simp at hpred
  · intro h
    refine List.mem_map.mpr ⟨row, List.mem_filter.mpr ⟨hmem, ?_⟩, rfl⟩
    have hdisj : (¬row.head = 1 ∨ ¬row.workdir = 1) ∨ ¬row.stage = 1 := by tauto
    simpa using hdisj

/-- C4 witness: a modified row of a concrete matrix is in the change
set. -/
theorem c4_changeSet_witness :
    ("content/a.md" ∈ changeSet c4Matrix ↔
      ¬((1 : Nat) = 1 ∧ (2 : Nat) = 1 ∧ (1 : Nat) = 1)) :=
  c4_changeSet_mem_iff c4Matrix ⟨"content/a.md", 1, 2, 1⟩ (by decide) (by decide)

/-- C5.  When the computed change set is empty, the run terminates with
the no-changes outcome (not an error), and its operation trace contains
no staging, commit, push, PR creation or PR merge. -/
theorem c5_no_changes_noop (props : ContentCommitProps) (env : CCEnv) (info : RepoInfo)
    (matrix : List StatusRow)
    (hrepo : getRepoInfo props.gitUrl = .ok info)
    (hclone : env.cloneResult = .ok ())
    (hbranch : env.branchResult = .ok ())
    (hexec : env.execResult = .ok ())
    (hstatus : env.statusResult = .ok matrix)
    (hempty : changeSet matrix = []) :
    (contentCommitRun props env).2 = .noChanges ∧
    ∀ a ∈ (contentCommitRun props env).1, isCommitPhaseAction a = false := by
  have hrun : contentCommitRun props env =
      ([Action.clone props.gitUrl (workingPathOf props env),
        Action.branchCreate (publishBranchName env.date),
        Action.execBuild (buildCmd props.script) (workingPathOf props env),
        Action.statusQuery [props.path]], .noChanges) := by
    simp [contentCommitRun, hrepo, hclone, hbranch, hexec, hstatus, hempty]
  refine ⟨by rw [hrun], ?_⟩
  rw [hrun]
  intro a ha
  simp only [List.mem_cons, List.not_mem_nil, or_false] at ha
  rcases ha with rfl | rfl | rfl | rfl <;> rfl

/-- C5 witness: a run whose content path is byte-identical in all three
states ends as a no-op. -/
theorem c5_no_changes_witness : (contentCommitRun wProps wEnvClean).2 = .noChanges :=
  (c5_no_changes_noop wProps wEnvClean wInfo wMatrixClean rfl rfl rfl rfl rfl rfl).1

/-- C6.  With a non-empty change set the run stages exactly the change
set: every `git.add` in the trace receives precisely `changeSet matrix`,
every staged path lies under the configured content path (the status
query is scoped to it), and the staging of the change set does occur. -/
theorem c6_stage_exactly_changeset (props : ContentCommitProps) (env : CCEnv)
    (info : RepoInfo) (matrix : List StatusRow)
    (hrepo : getRepoInfo props.gitUrl = .ok info)
    (hclone : env.cloneResult = .ok ())
    (hbranch : env.branchResult = .ok ())
    (hexec : env.execResult = .ok ())
    (hstatus : env.statusResult = .ok matrix)
    (hscope : ∀ r ∈ matrix, isUnderPath props.path r.file = true) :
    (∀ fs, Action.gitAdd fs ∈ (contentCommitRun props env).1 →
       fs = changeSet matrix ∧ ∀ f ∈ fs, isUnderPath props.path f = true) ∧
    (changeSet matrix ≠ [] →
       Action.gitAdd (changeSet matrix) ∈ (contentCommitRun props env).1) := by
  have hsub : ∀ f ∈ changeSet matrix, isUnderPath props.path f = true := by
    intro f hf
    rcases List.mem_map.mp hf with ⟨r, hr, rfl⟩
    exact hscope r (List.mem_filter.mp hr).1
  constructor
  · intro fs hmem
    have he := contentCommitRun_gitAdd props env matrix hstatus fs hmem
    exact ⟨he, he ▸ hsub⟩
  · intro hne
    have hisEmpty : (changeSet matrix).isEmpty = false := by simp [hne]
    simp only [contentCommitRun, hrepo, hclone, hbranch, hexec, hstatus, hisEmpty,
      Bool.false_eq_true, if_false]
    exact List.mem_append.mpr (Or.inr (commitPhase_gitAdd_mem props env info _ _))

/-- C6 witness: the concrete run stages exactly its change set. -/
theorem c6_stage_witness :
    Action.gitAdd (changeSet wMatrix) ∈ (contentCommitRun wProps wEnvOk).1 :=
  (c6_stage_exactly_changeset wProps wEnvOk wInfo wMatrix rfl rfl rfl rfl rfl
    (by decide)).2 (by decide)

/-- C7.  For a request whose fields are non-empty (the PublishRequest
invariant) but whose base branch is absent from the listed server refs,
validation fails with the base-branch-not-found error, and the gated
`start` flow performs none of the pipeline operations: no clone, no
scratch checkout, no branch. -/
theorem c7_base_branch_not_found (props : ContentCommitProps) (venv : ValidateEnv)
    (cenv : CCEnv)
    (hbase : props.base ≠ "") (hurl : props.gitUrl ≠ "") (huser : props.gitUsername ≠ "")
    (hpass : props.gitPassword ≠ "") (hscript : props.script ≠ "")
    (habsent : ∀ r ∈ venv.serverRefs, stripHeadsOnce r ≠ props.base) :
    validateInput props venv =
      .error ("Base branch name: " ++ props.base ++ " does not exist.") ∧
    startRun props venv cenv = ([], none) := by
  have hfind : venv.serverRefs.find? (fun r => stripHeadsOnce r == props.base) = none :=
    List.find?_eq_none.mpr (fun x hx => by simpa using habsent x hx)
  have hval : validateInput props venv =
      .error ("Base branch name: " ++ props.base ++ " does not exist.") := by
    unfold validateInput
    rw [if_neg hbase, if_neg hurl, if_neg huser, if_neg hpass, if_neg hscript, hfind]
  exact ⟨hval, by unfold startRun; rw [hval]⟩

/-- C7 witness: concrete request and ref list without the base branch. -/
theorem c7_base_branch_witness :
    validateInput c7Props c7VEnv = .error "Base branch name: main does not exist." ∧
    startRun c7Props c7VEnv wEnvOk = ([], none) :=
  c7_base_branch_not_found c7Props c7VEnv wEnvOk (by decide) (by decide) (by decide)
    (by decide) (by decide) (by decide)

/-- C8.  When the PR-creation response carries no number, the run fails
with the missing-PR-number error and no merge request appears in its
trace; moreover, in every run whatsoever a merge request for number n is
issued only when PR creation resolved with exactly that number. -/
theorem c8_missing_pr_number (props : ContentCommitProps) (env : CCEnv)
    (info : RepoInfo) (matrix : List StatusRow) (sha : String)
    (hrepo : getRepoInfo props.gitUrl = .ok info)
    (hclone : env.cloneResult = .ok ())
    (hbranch : env.branchResult = .ok ())
    (hexec : env.execResult = .ok ())
    (hstatus : env.statusResult = .ok matrix)
    (hne : changeSet matrix ≠ [])
    (hadd : env.addResult = .ok ())
    (hcommit : env.commitResult = .ok sha)
    (hpush : env.pushResult = .ok ())
    (hnonum : env.prCreateResult = .ok none) :
    (contentCommitRun props env).2 = .failed "Failed to retrieve content publish PR number." ∧
    (∀ n req, Action.prMerge n req ∉ (contentCommitRun props env).1) ∧
    (∀ env2 n req, Action.prMerge n req ∈ (contentCommitRun props env2).1 →
       env2.prCreateResult = .ok (some n)) := by
  have hisEmpty : (changeSet matrix).isEmpty = false := by simp [hne]
  have hcp : (commitPhase props env info (publishBranchName env.date) (changeSet matrix)).2 =
      .failed "Failed to retrieve content publish PR number." := by
    simp [commitPhase, hadd, hcommit, hpush, hnonum]
  refine ⟨?_, ?_, fun env2 n req h => contentCommitRun_prMerge props env2 n req h⟩
  · simp only [contentCommitRun, hrepo, hclone, hbranch, hexec, hstatus, hisEmpty,
      Bool.false_eq_true, if_false]
    exact hcp
  · intro n req hmem
    have hx := contentCommitRun_prMerge props env n req hmem
    rw [hnonum] at hx
    simp at hx

/-- C8 witness: a concrete run whose PR creation returns no number. -/
theorem c8_missing_pr_witness :
    (contentCommitRun wProps wEnvNoNum).2 =
      .failed "Failed to retrieve content publish PR number." :=
  (c8_missing_pr_number wProps wEnvNoNum wInfo wMatrix "sha1" rfl rfl rfl rfl rfl
    (by decide) rfl rfl rfl rfl).1

/-- C9.  Every run reaching the build step executes the chained command
`npm i && npm run build && <caller script>` in the workspace, and a
non-zero subprocess exit makes the run fail with the build-script error
carrying the captured standard-error text verbatim. -/
theorem c9_build_command (props : ContentCommitProps) (env : CCEnv) (info : RepoInfo)
    (hrepo : getRepoInfo props.gitUrl = .ok info)
    (hclone : env.cloneResult = .ok ())
    (hbranch : env.branchResult = .ok ()) :
    Action.execBuild (buildCmd props.script) (workingPathOf props env) ∈
      (contentCommitRun props env).1 ∧
    ∀ e, env.execResult = .error e →
      (contentCommitRun props env).2 = .failed ("Setup and build error: " ++ e) := by
  constructor
  · simp only [contentCommitRun, hrepo, hclone, hbranch]
    rcases env.execResult with e | u <;>
      rcases env.statusResult with e2 | mtx <;>
        dsimp only <;> (try split) <;> simp
  · intro e he
    simp [contentCommitRun, hrepo, hclone, hbranch, he]

/-- C9 witness: a concrete run whose build subprocess fails with stderr
"boom". -/
theorem c9_build_witness :
    (contentCommitRun wProps wEnvBuildFail).2 =
      .failed ("Setup and build error: " ++ "boom") :=
  (c9_build_command wProps wEnvBuildFail wInfo rfl rfl rfl).2 "boom" rfl

/-- C10 counterexample.  Claim: every URL string beginning with
`https://` is returned unchanged by the canonicalizer.  The bare string
"https://" begins with `https://` yet the canonicalizer throws (the
regex demands at least one further character), refuting the universal
claim as stated. -/
theorem c10_bare_https_counterexample :
    getGitWebUrl "https://" = .error "Invalid git url: https://" := by
  decide

/-- C10 amended.  Every URL of the form `https://` followed by at least
one character none of which is a line terminator (LF, CR, U+2028,
U+2029 — the characters the regex dot refuses) is returned unchanged by
the canonicalizer without any owner/repo check; and there exists such an
input, an https URL with no owner path segment, that passes
canonicalization and full input validation but is rejected with the
invalid-URL error only inside the pipeline, when the owner/repo identity
is derived. -/
theorem c10_https_passthrough (s : String) (hne : s.data ≠ [])
    (hnl : s.data.any isJsLineTerminator = false) :
    (getGitWebUrl ("https://" ++ s) = .ok ("https://" ++ s)) ∧
    (getGitWebUrl "https://example.com" = .ok "https://example.com" ∧
      validateInput c10Props c10VEnv = .ok true ∧
      contentCommitRun c10Props c10CEnv =
        ([], .failed "Invalid git url: https://example.com")) := by
  constructor
  · have hdata : ("https://" ++ s).data = "https://".data ++ s.data := String.data_append _ _
    have htake : List.take 8 ("https://".data ++ s.data) = "https://".data := by
      rw [show (8 : Nat) = "https://".data.length from rfl]
      exact List.take_left _ _
    have hdrop : List.drop 8 ("https://".data ++ s.data) = s.data := by
      rw [show (8 : Nat) = "https://".data.length from rfl]
      exact List.drop_left _ _
    have htest : httpsLooseTest ("https://" ++ s) = true := by
      simp only [httpsLooseTest, hdata, htake, hdrop]
      simp [hne, hnl]
    unfold getGitWebUrl
    rw [if_pos htest]
  · refine ⟨by decide, by decide, by decide⟩

/-- C10 witness: the amended pass-through at a concrete remainder. -/
theorem c10_https_witness :
    getGitWebUrl ("https://" ++ "x") = .ok ("https://" ++ "x") :=
  (c10_https_passthrough "x" (by decide) (by decide)).1

end ContentPublish
